import Mathlib

/-!
Verification development for the blockbuster NFC-kiosk firmware
(src/firmware/src/main.cpp, src/firmware/include/config.h).

The file embeds, as executable Lean definitions, the parts of the firmware
with real parsing and state logic:

* the NDEF/TLV decoder `readTagUrl` (main.cpp lines 124-214): the decoding of
  the raw byte buffer obtained from the tag.  The hardware transport
  (`readPassiveTargetID`, `ntag2xx_ReadPage`) is outside the model; the model
  takes the observed buffer `buf` (the `totalRead` bytes of `uint8_t data[128]`)
  as input.  In the C code, `data` is an uninitialized 128-byte stack array and
  the parser can read indices at or beyond `totalRead` (see the bounds
  discussion below); such reads return indeterminate bytes.  The model makes
  this explicit: reads at index `i < buf.length` return the buffer byte, reads
  at `i ≥ buf.length` return `junk i % 256` for an arbitrary junk function
  given as a parameter, and every decoder result carries a flag recording
  whether any read touched an index `≥ buf.length`.

* the URL builder `buildPlayUrl` (lines 220-256), modeled over the character
  list of an Arduino `String` (one `Char` per byte).

* the LED state machine `updateLed`/`setLed` (lines 42-78), the debouncer
  `buttonPressed` (lines 281-297) and the control loop `loop` (lines 388-426).
  Colors and the `FastLED.show` rendering are not modeled (no claim mentions
  them; the NO_WIFI breathing animation uses floating-point `sin` and affects
  only the color).  `millis()` is modeled as a single per-tick timestamp, and
  the timestamp subtraction `millis() - t` as truncated `Nat` subtraction,
  which agrees with the unsigned C arithmetic on a monotone clock.
-/

/-! ## Constants from config.h -/

def DEBOUNCE_MS : Nat := 50

def STATUS_DISPLAY_MS : Nat := 2000

def WIFI_RECONNECT_INTERVAL_MS : Nat := 30000

/-! ## Byte reads

`rd buf junk i` models the C read `data[i]` (a `uint8_t` load): inside the
observed buffer it returns the stored byte, past it the indeterminate stack
byte `junk i`. -/

def rd (buf : List Nat) (junk : Nat → Nat) (i : Nat) : Nat :=
  if i < buf.length then buf.getD i 0 % 256 else junk i % 256

/-- All-zero junk, used to evaluate the model at concrete inputs. -/
def j0 : Nat → Nat := fun _ => 0

/-! ## NDEF URI prefix table (main.cpp lines 85-122) -/

/-- The 36-entry `ndefUriPrefixes` table, codes 0x00-0x23. -/
def ndefUriPrefixes : List String :=
  [ ""
  , "http://www."
  , "https://www."
  , "http://"
  , "https://"
  , "tel:"
  , "mailto:"
  , "ftp://anonymous:anonymous@"
  , "ftp://ftp."
  , "ftps://"
  , "sftp://"
  , "smb://"
  , "nfs://"
  , "ftp://"
  , "dav://"
  , "news:"
  , "telnet://"
  , "imap:"
  , "rtsp://"
  , "urn:"
  , "pop:"
  , "sip:"
  , "sips:"
  , "tftp:"
  , "btspp://"
  , "btl2cap://"
  , "btgoep://"
  , "tcpobex://"
  , "irdaobex://"
  , "file://"
  , "urn:epc:id:"
  , "urn:epc:tag:"
  , "urn:epc:pat:"
  , "urn:epc:raw:"
  , "urn:epc:"
  , "urn:nfc:"
  ]

/-- Main.cpp lines 196-199: `prefix = ""` unless
`prefixCode < sizeof(ndefUriPrefixes)/sizeof(ndefUriPrefixes[0])`. -/
def uriTableLookup (code : Nat) : String :=
  if code < ndefUriPrefixes.length then ndefUriPrefixes.getD code "" else ""

/-! ## NDEF record field accessors (main.cpp lines 166-191)

All take the buffer, the junk function and the offset `p` of the record header
byte (the C pointer `p` after the TLV length byte has been consumed). -/

def recHeader (buf : List Nat) (junk : Nat → Nat) (p : Nat) : Nat :=
  rd buf junk p

/-- Line 169: `bool sr = header & 0x10`. -/
def recSr (buf : List Nat) (junk : Nat → Nat) (p : Nat) : Bool :=
  recHeader buf junk p &&& 0x10 != 0

/-- Line 170: `uint8_t tnf = header & 0x07`. -/
def recTnf (buf : List Nat) (junk : Nat → Nat) (p : Nat) : Nat :=
  recHeader buf junk p &&& 0x07

/-- Line 173: `uint8_t typeLen = *(p + 1)`. -/
def recTypeLen (buf : List Nat) (junk : Nat → Nat) (p : Nat) : Nat :=
  rd buf junk (p + 1)

/-- Lines 184-187: the four bytes at `q`, `q+1`, `q+2`, `q+3` read as a
big-endian 32-bit value (the `uint32_t` shifts-and-or never overflow and the
or-ed fields are disjoint, so the value is this sum). -/
def be32at (buf : List Nat) (junk : Nat → Nat) (q : Nat) : Nat :=
  rd buf junk q * 16777216 + rd buf junk (q + 1) * 65536 +
    rd buf junk (q + 2) * 256 + rd buf junk (q + 3)

/-- Lines 178-188: payload length; for a short record the byte at `p+2`, else
the big-endian value of bytes `p+2`..`p+5` capped at 255
(`payloadLen = (pl > 255) ? 255 : (uint8_t)pl`). -/
def recPayloadLen (buf : List Nat) (junk : Nat → Nat) (p : Nat) : Nat :=
  if recSr buf junk p then rd buf junk (p + 2)
  else min (be32at buf junk (p + 2)) 255

/-- Lines 180/189: offset of the type field (`p + 3` short, `p + 6` long). -/
def recTypeOff (buf : List Nat) (junk : Nat → Nat) (p : Nat) : Nat :=
  if recSr buf junk p then p + 3 else p + 6

/-- Lines 181/190: `payload = typeField + typeLen`. -/
def recPayloadOff (buf : List Nat) (junk : Nat → Nat) (p : Nat) : Nat :=
  recTypeOff buf junk p + recTypeLen buf junk p

/-! ## URL string assembly (main.cpp lines 200-203) -/

/-- Arduino `String += (char)b`: appending the byte 0 appends nothing
(`String::concat(char)` goes through `strlen` of a 2-byte buffer), any other
byte is appended as one character. -/
def appendByte (s : String) (b : Nat) : String :=
  if b = 0 then s else s.push (Char.ofNat b)

/-- Line 201-203: `for (uint8_t i = 1; i < payloadLen && (payload + i) < end; i++)
url += (char)payload[i];`.  `n` is the remaining iteration budget
`payloadLen - i`, so `i < payloadLen` holds exactly while `n > 0`; the loop
reads only indices below `buf.length`. -/
def copyFrom (buf : List Nat) (junk : Nat → Nat) (off : Nat) :
    Nat → Nat → String → String
  | i, n + 1, acc =>
      if off + i < buf.length then
        copyFrom buf junk off (i + 1) n (appendByte acc (rd buf junk (off + i)))
      else acc
  | _, 0, acc => acc

/-! ## NDEF record parsing (main.cpp lines 164-207) -/

/-- Parse of the single NDEF record inside an NDEF Message TLV, with the
header byte at offset `p`.  Mirrors lines 165-207: the bounds guard
`if (p + 3 > end) break;`, the field reads, and the acceptance test
`tnf == 0x01 && typeLen == 1 && *typeField == 'U' && payloadLen > 0`
with the C short-circuit order (the type-field byte is read only after the
`tnf`/`typeLen` conjuncts hold).  Returns the accepted URL (`some`) or `none`
for the `break` paths that lead to `return ""` at line 213, paired with a flag
that is `true` exactly when some read touched an index `≥ buf.length`: the
4-byte payload-length read (`p+3`..`p+5` are not covered by the `p + 3 > end`
guard), the type-field byte, or the first payload byte. -/
def parseNdefRecord (buf : List Nat) (junk : Nat → Nat) (p : Nat) :
    Option String × Bool :=
  if buf.length < p + 3 then (none, false)
  else
    let sr := recSr buf junk p
    let tnf := recTnf buf junk p
    let typeLen := recTypeLen buf junk p
    let payloadLen := recPayloadLen buf junk p
    let typeOff := recTypeOff buf junk p
    let payloadOff := typeOff + typeLen
    let oobLen := !sr && decide (buf.length ≤ p + 5)
    if tnf = 1 ∧ typeLen = 1 then
      let oobType := decide (buf.length ≤ typeOff)
      if rd buf junk typeOff = 85 ∧ 0 < payloadLen then
        let oobPay := decide (buf.length ≤ payloadOff)
        let pfx := uriTableLookup (rd buf junk payloadOff)
        (some (copyFrom buf junk payloadOff 1 (payloadLen - 1) pfx),
          oobLen || oobType || oobPay)
      else (none, oobLen || oobType)
    else (none, oobLen)

/-! ## TLV scan (main.cpp lines 153-210) -/

/-- Offset of the record inside the first NDEF Message TLV (type 0x03) found
by the scan loop, following exactly the loop's control flow: null TLVs (0x00)
are skipped without a length byte, the terminator (0xFE) stops the scan, a
missing length byte stops the scan, other TLVs skip `tlvLen` bytes.  The fuel
argument bounds the recursion; every step advances `p`, so fuel
`buf.length + 1` is never exhausted from `p = 0`. -/
def findNdef (buf : List Nat) (junk : Nat → Nat) : Nat → Nat → Option Nat
  | _, 0 => none
  | p, fuel + 1 =>
      if buf.length ≤ p then none
      else
        let tlvType := rd buf junk p
        if tlvType = 0 then findNdef buf junk (p + 1) fuel
        else if tlvType = 254 then none
        else if buf.length ≤ p + 1 then none
        else if tlvType = 3 then some (p + 2)
        else findNdef buf junk (p + 2 + rd buf junk (p + 1)) fuel

/-- The TLV scan loop itself (`while (p < end) ...`).  On the first NDEF
Message TLV it parses the record and ends (both the `return url` and the
`break` after a rejected record leave the loop). -/
def tlvScan (buf : List Nat) (junk : Nat → Nat) :
    Nat → Nat → Option String × Bool
  | _, 0 => (none, false)
  | p, fuel + 1 =>
      if buf.length ≤ p then (none, false)
      else
        let tlvType := rd buf junk p
        if tlvType = 0 then tlvScan buf junk (p + 1) fuel
        else if tlvType = 254 then (none, false)
        else if buf.length ≤ p + 1 then (none, false)
        else if tlvType = 3 then parseNdefRecord buf junk (p + 2)
        else tlvScan buf junk (p + 2 + rd buf junk (p + 1)) fuel

/-- The decoding part of `readTagUrl` (main.cpp lines 148-213), from the
observed buffer: the `totalRead < 4` guard (line 148) and the TLV scan from
offset 0.  First component: `some url` for the `return url` at line 205,
`none` for the `return ""` paths ("no URI found").  Second component: `true`
when a byte at an index `≥ buf.length` was read. -/
def readTagUrl (buf : List Nat) (junk : Nat → Nat) : Option String × Bool :=
  if buf.length < 4 then (none, false)
  else tlvScan buf junk 0 (buf.length + 1)

/-! ## Spec-modelled NDEF encoder (for the round-trip property)

Modelled from the spec: the repository contains no NDEF encoder; spec section 8
states the round-trip property for "encoding a well-known URI record", which
presumes the standard NFC Forum layout described in spec sections 3 and 4.1:
an NDEF Message TLV (type 0x03, one length byte) wrapping a single short
record — header with message-begin, message-end, short-record and TNF =
well-known (0xD1), type length 1, one payload-length byte, type byte 0x55
(the character U), payload = prefix code then suffix bytes — followed by a
terminator TLV (0xFE). -/
def encodeUriTag (code : Nat) (suffix : List Nat) : List Nat :=
  0x03 :: (5 + suffix.length) :: 0xD1 :: 0x01 :: (1 + suffix.length) ::
    0x55 :: code :: (suffix ++ [0xFE])

/-! ## URL builder (main.cpp lines 220-256)

An Arduino `String` is a byte string; it is modeled as a `List Char`, one
`Char` per byte, with `String` wrappers at the boundary.  `buildPlayUrl` in
the C code reads the globals `serverBaseUrl` and `deviceId`; the model takes
them as arguments. -/

/-- Lines 225-235: the scan for the third slash — `slashCount` counts slashes
seen so far, `i` is the current index; the loop exits with `pathStart = i` the
first time `slashCount` reaches 3, else `pathStart = -1` (here `none`). -/
def thirdSlashFrom : List Char → Nat → Nat → Option Nat
  | [], _, _ => none
  | c :: rest, i, slashCount =>
      if c = '/' then
        if slashCount + 1 = 3 then some i
        else thirdSlashFrom rest (i + 1) (slashCount + 1)
      else thirdSlashFrom rest (i + 1) slashCount

/-- Last element of a list is a slash: Arduino `url.endsWith("/")`. -/
def endsWithSlash (s : List Char) : Bool := s.getLast? = some '/'

/-- First element is a slash: Arduino `path.startsWith("/")`. -/
def startsWithSlash : List Char → Bool
  | c :: _ => c = '/'
  | [] => false

/-- Lines 220-256 on character lists.  `url.substring(0, url.length() - 1)`
is `dropLast`; `url.indexOf(char(63)) >= 0` is `contains`. -/
def buildPlayUrlL (base dev tag : List Char) : List Char :=
  let url :=
    if base.length > 0 then
      let path :=
        match thirdSlashFrom tag 0 0 with
        | some i => tag.drop i
        | none => tag
      let url := base
      let url := if endsWithSlash url && startsWithSlash path then url.dropLast else url
      url ++ path
    else tag
  if dev.length > 0 then
    url ++ (if url.contains '?' then ['&'] else ['?']) ++ "deviceId=".toList ++ dev
  else url

/-- `buildPlayUrl` over `String`s. -/
def buildPlayUrl (serverBaseUrl deviceId tagUrl : String) : String :=
  String.mk (buildPlayUrlL serverBaseUrl.toList deviceId.toList tagUrl.toList)

/-- Indices of the occurrences of a character in a list. -/
def charIdxs (c : Char) : List Char → List Nat
  | [] => []
  | a :: rest =>
      if a = c then 0 :: (charIdxs c rest).map (· + 1)
      else (charIdxs c rest).map (· + 1)

/-- The URL builder as spec section 4.4 words it, used to check the
implementation against the spec sentence: path is the substring of the tag
URI starting at its third slash character (the whole URI when it has fewer
than three slashes); the base keeps all but one trailing slash when the path
starts with a slash; the device id is appended as a `deviceId` query
parameter with `&` when a `?` is already present, else `?`. -/
def buildPlayUrlSpecL (base dev tag : List Char) : List Char :=
  let url :=
    if base.length > 0 then
      let path :=
        match (charIdxs '/' tag).get? 2 with
        | some i => tag.drop i
        | none => tag
      let url := base
      let url := if endsWithSlash url && startsWithSlash path then url.dropLast else url
      url ++ path
    else tag
  if dev.length > 0 then
    url ++ (if url.contains '?' then ['&'] else ['?']) ++ "deviceId=".toList ++ dev
  else url

def buildPlayUrlSpec (serverBaseUrl deviceId tagUrl : String) : String :=
  String.mk (buildPlayUrlSpecL serverBaseUrl.toList deviceId.toList tagUrl.toList)

/-! ## LED state machine (main.cpp lines 15-17, 42-78) -/

inductive LedState
  | IDLE
  | NO_WIFI
  | WORKING
  | SUCCESS
  | ERROR
deriving DecidableEq

/-- The state effect of `updateLed` (lines 47-78): `SUCCESS` and `ERROR`
call `setLed(IDLE)` — which stamps `ledStateStartMs = millis()` — once
`elapsed > STATUS_DISPLAY_MS`; every other state leaves the pair unchanged.
Color output and `FastLED.show` are not modeled. -/
def updateLed (st : LedState) (startMs now : Nat) : LedState × Nat :=
  match st with
  | .SUCCESS =>
      if now - startMs > STATUS_DISPLAY_MS then (.IDLE, now) else (.SUCCESS, startMs)
  | .ERROR =>
      if now - startMs > STATUS_DISPLAY_MS then (.IDLE, now) else (.ERROR, startMs)
  | s => (s, startMs)

/-! ## Button debouncing (main.cpp lines 28-29, 281-297) -/

structure ButtonState where
  lastButtonState : Bool
  lastDebounceMs : Nat
  prevStable : Bool
deriving DecidableEq

/-- Initial values: `lastButtonState = HIGH` (line 28), `lastDebounceMs = 0`
(line 29), `static bool prevStable = HIGH` (line 289).  `true` is HIGH
(released, pull-up), `false` is LOW (pressed). -/
def initButton : ButtonState := ⟨true, 0, true⟩

/-- One call of `buttonPressed()` (lines 281-297) with the raw pin reading
and the tick timestamp; returns the press event and the updated statics. -/
def buttonPressed (b : ButtonState) (reading : Bool) (now : Nat) :
    Bool × ButtonState :=
  let lastDebounceMs := if reading != b.lastButtonState then now else b.lastDebounceMs
  let stable := if now - lastDebounceMs > DEBOUNCE_MS then reading else b.prevStable
  let pressed := b.prevStable && !stable
  (pressed, ⟨reading, lastDebounceMs, stable⟩)

/-- Per-tick press events over a trace of `(millis, raw reading)` samples. -/
def pressTrace (b : ButtonState) : List (Nat × Bool) → List Bool
  | [] => []
  | (now, r) :: rest =>
      let step := buttonPressed b r now
      step.1 :: pressTrace step.2 rest

/-- Button state after running a trace. -/
def runButton (b : ButtonState) : List (Nat × Bool) → ButtonState
  | [] => b
  | (now, r) :: rest => runButton (buttonPressed b r now).2 rest

/-- Checks along a trace that every LOW (pressed) sample occurs at most
`DEBOUNCE_MS` after the most recent raw-signal change — that is, every raw
toggle to pressed is bounced back within the debounce window.  The first two
arguments track the previous raw reading and the last-change timestamp, with
the same update rule as `buttonPressed`. -/
def shortLows : Bool → Nat → List (Nat × Bool) → Bool
  | _, _, [] => true
  | last, lastChange, (now, r) :: rest =>
      let lc := if r != last then now else lastChange
      (r || decide (now - lc ≤ DEBOUNCE_MS)) && shortLows r lc rest

/-! ## Control loop (main.cpp lines 388-426) -/

structure Device where
  ledState : LedState
  ledStateStartMs : Nat
  lastWifiCheckMs : Nat
  button : ButtonState
deriving DecidableEq

/-- Exogenous inputs of one `loop()` pass: the tick timestamp, the WiFi
status, the raw button reading, the string result of `readTagUrl()` (empty
for no tag or no URI), and the `postPlay` outcome. -/
structure TickInput where
  now : Nat
  wifiConnected : Bool
  buttonReading : Bool
  tagUrl : String
  postOk : Bool

/-- One pass of `loop()` (lines 388-426): render (`updateLed`), the WiFi
section with its early `return` (the NO_WIFI forcing applies only when the
state is IDLE; the reconnect timer is stamped on its own interval), the
debounced button poll, the drop-while-WORKING rule, and the
read-decode-build-post sequence whose outcome sets SUCCESS or ERROR.  The
intermediate `setLed(WORKING)` of line 420 is overwritten by line 425 within
the same pass, so only the final state is recorded; `millis()` is modeled as
the single timestamp `inp.now`. -/
def loopTick (d : Device) (inp : TickInput) : Device :=
  let r := updateLed d.ledState d.ledStateStartMs inp.now
  let st1 := r.1
  let start1 := r.2
  if inp.wifiConnected = false then
    let st2 := if st1 = .IDLE then LedState.NO_WIFI else st1
    let start2 := if st1 = .IDLE then inp.now else start1
    let lastW :=
      if inp.now - d.lastWifiCheckMs > WIFI_RECONNECT_INTERVAL_MS then inp.now
      else d.lastWifiCheckMs
    ⟨st2, start2, lastW, d.button⟩
  else
    let st2 := if st1 = .NO_WIFI then LedState.IDLE else st1
    let start2 := if st1 = .NO_WIFI then inp.now else start1
    let poll := buttonPressed d.button inp.buttonReading inp.now
    if poll.1 = false then ⟨st2, start2, d.lastWifiCheckMs, poll.2⟩
    else if st2 = .WORKING then ⟨st2, start2, d.lastWifiCheckMs, poll.2⟩
    else if inp.tagUrl.length = 0 then ⟨.ERROR, inp.now, d.lastWifiCheckMs, poll.2⟩
    else ⟨if inp.postOk then .SUCCESS else .ERROR, inp.now, d.lastWifiCheckMs, poll.2⟩

/-! ## Concrete buffers used in the claim theorems -/

/-- Bytes of the suffix `example.com/path`. -/
def exampleSuffix : List Nat := "example.com/path".toList.map Char.toNat

/-- Eight observed bytes whose NDEF record layout (short record, TNF 1,
type length 1) places the type field at index 8, one past the end. -/
def bufTypeOob : List Nat := [0x00, 0x00, 0x00, 0x03, 0xFF, 0x11, 0x01, 0x05]

/-- Short URI record declaring payload length 255 in an 8-byte buffer. -/
def bufOverLen : List Nat := [0x03, 0x06, 0x11, 0x01, 0xFF, 0x55, 0x04, 0x41]

/-- A rejected record (TNF 2) in the first NDEF Message TLV, followed by a
second NDEF Message TLV holding a valid URI record for `https://A`. -/
def bufTwoTlvs : List Nat :=
  [0x03, 0x07, 0x12, 0x01, 0x02, 0x55, 0x04, 0x41,
   0x03, 0x07, 0xD1, 0x01, 0x02, 0x55, 0x04, 0x41]

/-- A single valid URI record TLV for `https://A`, then a terminator. -/
def bufOneUri : List Nat :=
  [0x03, 0x07, 0xD1, 0x01, 0x02, 0x55, 0x04, 0x41, 0xFE, 0x00, 0x00, 0x00]

/-- A URI record whose prefix code 0x24 = 36 is just outside the table;
suffix bytes `AB`. -/
def bufCode36 : List Nat :=
  [0x03, 0x06, 0xD1, 0x01, 0x03, 0x55, 0x24, 0x41, 0x42, 0xFE, 0x00, 0x00]

/-- A long (non-short-record) URI record declaring big-endian payload length
65536; bytes `A` then `B` follow the type field. -/
def bufLongRec : List Nat :=
  [0x03, 0x0B, 0xC1, 0x01, 0x00, 0x01, 0x00, 0x00, 0x55, 0x04, 0x41, 0x42]

/-- The buffer at offsets `q`..`q+3` overwritten with the big-endian bytes of
255, used to state that a long record declaring a length above 255 behaves
exactly as one declaring 255. -/
def setLen255 (buf : List Nat) (q : Nat) : List Nat :=
  (((buf.set q 0).set (q + 1) 0).set (q + 2) 0).set (q + 3) 255

/-! ## Helper lemmas -/

/-- The TLV scan is the record parse at the offset located by `findNdef`:
the loop returns the parse result of the first NDEF Message TLV it reaches,
and `(none, false)` (the `return ""` paths) when no such TLV is reached. -/
theorem tlvScan_eq_findNdef (buf : List Nat) (junk : Nat → Nat) :
    ∀ fuel p, tlvScan buf junk p fuel =
      match findNdef buf junk p fuel with
      | some q => parseNdefRecord buf junk q
      | none => (none, false) := by
  intro fuel
  induction fuel with
  | zero => intro p; rfl
  | succ n ih =>
    intro p
    simp only [tlvScan, findNdef]
    split
    · rfl
    · split
      · exact ih (p + 1)
      · split
        · rfl
        · split
          · rfl
          · split
            · rfl
            · exact ih _

/-- An accepted record satisfies the URI acceptance conditions of line 194. -/
theorem parse_some_implies (buf : List Nat) (junk : Nat → Nat) (p : Nat) (u : String)
    (h : (parseNdefRecord buf junk p).1 = some u) :
    recTnf buf junk p = 1 ∧ recTypeLen buf junk p = 1 ∧
      rd buf junk (recTypeOff buf junk p) = 85 := by
  simp only [parseNdefRecord] at h
  split at h
  · simp at h
  · split at h
    · split at h
      · rename_i hc hd
        exact ⟨hc.1, hc.2, hd.1⟩
      · simp at h
    · simp at h

/-! ## Claim C1 -/

/-- C1 (code_bug evidence): the decoder does NOT keep all reads within the
observed buffer, and a record declaring a payload length past the buffer end
does NOT abort with absent.  On `bufTypeOob` (8 observed bytes) the record
layout places the type field at index 8 and the acceptance test reads it, so
the out-of-bounds flag is set — in the C code this reads an uninitialized
stack byte past `data + totalRead`.  On `bufOverLen`, a record declaring
payload length 255 in an 8-byte buffer is decoded to `https://A` (the copy
loop silently truncates at the buffer end) instead of aborting with the empty
string. -/
theorem c1_bounds_violations :
    (readTagUrl bufTypeOob j0).2 = true ∧
    (readTagUrl bufOverLen j0).1 = some "https://A" := ⟨rfl, rfl⟩

/-! ## Claim C2 -/

/-- C2: a decode that returns a URI does so from the record of the first NDEF
Message TLV, and that record satisfies TNF = 1 (well-known), type-length = 1
and type byte 85 (the character U); conversely a record failing any of the
three conditions is never accepted — the parse returns `none`, which is the
`return ""` ("no URI found") path of the decoder. -/
theorem c2_acceptance_conditions :
    (∀ (buf : List Nat) (junk : Nat → Nat) (u : String),
        (readTagUrl buf junk).1 = some u →
        ∃ p, findNdef buf junk 0 (buf.length + 1) = some p ∧
          recTnf buf junk p = 1 ∧ recTypeLen buf junk p = 1 ∧
          rd buf junk (recTypeOff buf junk p) = 85) ∧
    (∀ (buf : List Nat) (junk : Nat → Nat) (p : Nat),
        ¬ (recTnf buf junk p = 1 ∧ recTypeLen buf junk p = 1 ∧
            rd buf junk (recTypeOff buf junk p) = 85) →
        (parseNdefRecord buf junk p).1 = none) := by
  constructor
  · intro buf junk u h
    unfold readTagUrl at h
    split at h
    · simp at h
    · rw [tlvScan_eq_findNdef] at h
      obtain hq | ⟨q, hq⟩ := (findNdef buf junk 0 (buf.length + 1)).eq_none_or_eq_some
      · rw [hq] at h; simp at h
      · rw [hq] at h
        exact ⟨q, hq, parse_some_implies buf junk q u h⟩
  · intro buf junk p hne
    simp only [parseNdefRecord]
    split
    · rfl
    · split
      · split
        · rename_i hc hd
          exact absurd ⟨hc.1, hc.2, hd.1⟩ hne
        · rfl
      · rfl

/-- Witness for C2 at concrete inputs: `bufOneUri` decodes to `https://A`
and the theorem locates its accepted record; the TNF = 2 record of
`bufTwoTlvs` is rejected. -/
theorem c2_acceptance_conditions_witness :
    (∃ p, findNdef bufOneUri j0 0 (bufOneUri.length + 1) = some p ∧
        recTnf bufOneUri j0 p = 1 ∧ recTypeLen bufOneUri j0 p = 1 ∧
        rd bufOneUri j0 (recTypeOff bufOneUri j0 p) = 85) ∧
    (parseNdefRecord bufTwoTlvs j0 2).1 = none :=
  ⟨c2_acceptance_conditions.1 bufOneUri j0 "https://A" rfl,
   c2_acceptance_conditions.2 bufTwoTlvs j0 2 (by decide)⟩

/-! ## Claim C3 -/

/-- C3: round-trip — encoding a well-known URI record with prefix code 4
(`https://`) and suffix `example.com/path`, wrapping it in an NDEF Message
TLV, and decoding yields exactly `https://example.com/path`; the
out-of-bounds flag is false, so only observed bytes were read. -/
theorem c3_round_trip :
    readTagUrl (encodeUriTag 4 exampleSuffix) j0 =
      (some "https://example.com/path", false) := rfl

/-! ## Claim C10 -/

/-- C10: only the first NDEF Message TLV matters — whenever the scan locates
a first NDEF Message TLV (record offset `q`), the whole decode equals the
parse of that single record; in particular if that record is rejected the
decoder returns absent, whatever the rest of the buffer holds. -/
theorem c10_first_tlv_decides :
    ∀ (buf : List Nat) (junk : Nat → Nat) (q : Nat),
      ¬ buf.length < 4 →
      findNdef buf junk 0 (buf.length + 1) = some q →
      readTagUrl buf junk = parseNdefRecord buf junk q ∧
      ((parseNdefRecord buf junk q).1 = none → (readTagUrl buf junk).1 = none) := by
  intro buf junk q h4 hf
  have h := tlvScan_eq_findNdef buf junk (buf.length + 1) 0
  rw [hf] at h
  have hmain : readTagUrl buf junk = parseNdefRecord buf junk q := by
    unfold readTagUrl
    rw [if_neg h4]
    exact h
  exact ⟨hmain, fun hn => by rw [hmain]; exact hn⟩

/-- Witness for C10: in `bufTwoTlvs` the first NDEF Message TLV holds a
TNF = 2 record, so decoding returns absent, even though the second NDEF
Message TLV (record offset 10) holds a URI record for `https://A`. -/
theorem c10_first_tlv_decides_witness :
    readTagUrl bufTwoTlvs j0 = parseNdefRecord bufTwoTlvs j0 2 ∧
    (readTagUrl bufTwoTlvs j0).1 = none ∧
    (parseNdefRecord bufTwoTlvs j0 10).1 = some "https://A" :=
  ⟨(c10_first_tlv_decides bufTwoTlvs j0 2 (by decide) (by decide)).1,
   (c10_first_tlv_decides bufTwoTlvs j0 2 (by decide) (by decide)).2 rfl,
   rfl⟩

/-! ## More helper lemmas (reads through `List.set`, copy-loop congruence) -/

theorem rd_set_ne (buf : List Nat) (junk : Nat → Nat) (i v q : Nat) (h : i ≠ q) :
    rd (buf.set i v) junk q = rd buf junk q := by
  unfold rd
  rw [List.length_set]
  split
  · simp [List.getD_eq_getElem?_getD, List.getElem?_set_ne h]
  · rfl

theorem rd_set_self (buf : List Nat) (junk : Nat → Nat) (i v : Nat)
    (h : i < buf.length) (hv : v < 256) : rd (buf.set i v) junk i = v := by
  unfold rd
  rw [List.length_set, if_pos h]
  simp [List.getD_eq_getElem?_getD, List.getElem?_set_self, h]
  omega

/-- The copy loop result only depends on the bytes at indices above `off`
and on the buffer length. -/
theorem copyFrom_congr (buf bufB : List Nat) (junk : Nat → Nat) (off : Nat)
    (hl : bufB.length = buf.length)
    (hr : ∀ q, off + 1 ≤ q → rd bufB junk q = rd buf junk q) :
    ∀ n i acc, 1 ≤ i → copyFrom bufB junk off i n acc = copyFrom buf junk off i n acc := by
  intro n
  induction n with
  | zero => intro i acc _; rfl
  | succ m ih =>
    intro i acc hi
    simp only [copyFrom]
    rw [hl]
    split
    · rw [hr (off + i) (by omega)]
      exact ih (i + 1) _ (by omega)
    · rfl

theorem rd_setLen255_outside (buf : List Nat) (junk : Nat → Nat) (q qq : Nat)
    (h : qq < q ∨ q + 3 < qq) : rd (setLen255 buf q) junk qq = rd buf junk qq := by
  unfold setLen255
  rw [rd_set_ne _ _ _ _ _ (by omega), rd_set_ne _ _ _ _ _ (by omega),
      rd_set_ne _ _ _ _ _ (by omega), rd_set_ne _ _ _ _ _ (by omega)]

theorem length_setLen255 (buf : List Nat) (q : Nat) :
    (setLen255 buf q).length = buf.length := by
  simp [setLen255, List.length_set]

theorem be32at_setLen255 (buf : List Nat) (junk : Nat → Nat) (q : Nat)
    (h : q + 3 < buf.length) : be32at (setLen255 buf q) junk q = 255 := by
  have h0 : rd (setLen255 buf q) junk q = 0 := by
    unfold setLen255
    rw [rd_set_ne _ _ _ _ _ (by omega), rd_set_ne _ _ _ _ _ (by omega),
        rd_set_ne _ _ _ _ _ (by omega), rd_set_self _ _ _ _ (by omega) (by omega)]
  have h1 : rd (setLen255 buf q) junk (q + 1) = 0 := by
    unfold setLen255
    rw [rd_set_ne _ _ _ _ _ (by omega), rd_set_ne _ _ _ _ _ (by omega),
        rd_set_self _ _ _ _ (by simp [List.length_set]; omega) (by omega)]
  have h2 : rd (setLen255 buf q) junk (q + 2) = 0 := by
    unfold setLen255
    rw [rd_set_ne _ _ _ _ _ (by omega),
        rd_set_self _ _ _ _ (by simp [List.length_set]; omega) (by omega)]
  have h3 : rd (setLen255 buf q) junk (q + 3) = 255 := by
    unfold setLen255
    rw [rd_set_self _ _ _ _ (by simp [List.length_set]; omega) (by omega)]
  unfold be32at
  rw [h0, h1, h2, h3]

/-! ## Claim C4 -/

/-- C4: an accepted URI record whose first payload byte (the prefix code) is
36 or more — outside the 36-entry table — still decodes: the result is `some`
of the copy loop started from the empty prefix, that is, the remaining
payload bytes alone. -/
theorem c4_out_of_table_code :
    ∀ (buf : List Nat) (junk : Nat → Nat) (p : Nat),
      ¬ buf.length < p + 3 →
      recTnf buf junk p = 1 → recTypeLen buf junk p = 1 →
      rd buf junk (recTypeOff buf junk p) = 85 →
      0 < recPayloadLen buf junk p →
      36 ≤ rd buf junk (recPayloadOff buf junk p) →
      (parseNdefRecord buf junk p).1 =
        some (copyFrom buf junk (recPayloadOff buf junk p) 1
          (recPayloadLen buf junk p - 1) "") := by
  intro buf junk p h3 htnf htl h85 hpl hcode
  have hlen36 : ndefUriPrefixes.length = 36 := rfl
  simp only [recPayloadOff] at hcode ⊢
  simp only [parseNdefRecord]
  rw [if_neg h3, if_pos ⟨htnf, htl⟩, if_pos ⟨h85, hpl⟩]
  have hpfx : uriTableLookup
      (rd buf junk (recTypeOff buf junk p + recTypeLen buf junk p)) = "" := by
    unfold uriTableLookup
    rw [if_neg (by rw [hlen36]; omega)]
  rw [hpfx]

/-- Witness for C4: `bufCode36` carries prefix code 36 and suffix bytes
`AB`; the record decodes (no failure) to exactly `AB`. -/
theorem c4_out_of_table_code_witness :
    (parseNdefRecord bufCode36 j0 2).1 =
      some (copyFrom bufCode36 j0 (recPayloadOff bufCode36 j0 2) 1
        (recPayloadLen bufCode36 j0 2 - 1) "") ∧
    (parseNdefRecord bufCode36 j0 2).1 = some "AB" :=
  ⟨c4_out_of_table_code bufCode36 j0 2 (by decide) (by decide) (by decide)
      (by decide) (by decide) (by decide), rfl⟩

/-! ## Claim C5 -/

/-- C5: for a record without the short-record flag, the payload length used
to size the payload slice is the big-endian value of the 4 bytes after the
type-length byte capped at 255; moreover a record declaring a length above
255 parses exactly as the same record declaring 255 (`setLen255` overwrites
the four length bytes with big-endian 255), so larger declared lengths are
truncated to exactly 255. -/
theorem c5_long_record_length_clamp :
    (∀ (buf : List Nat) (junk : Nat → Nat) (p : Nat),
        recSr buf junk p = false →
        recPayloadLen buf junk p = min (be32at buf junk (p + 2)) 255) ∧
    (∀ (buf : List Nat) (junk : Nat → Nat) (p : Nat),
        recSr buf junk p = false → p + 5 < buf.length →
        255 < be32at buf junk (p + 2) →
        recPayloadLen buf junk p = 255 ∧
        parseNdefRecord buf junk p = parseNdefRecord (setLen255 buf (p + 2)) junk p) := by
  have part1 : ∀ (buf : List Nat) (junk : Nat → Nat) (p : Nat),
      recSr buf junk p = false →
      recPayloadLen buf junk p = min (be32at buf junk (p + 2)) 255 := by
    intro buf junk p hsr
    simp [recPayloadLen, hsr]
  refine ⟨part1, ?_⟩
  intro buf junk p hsr hlen hbig
  have hpl : recPayloadLen buf junk p = 255 := by
    rw [part1 buf junk p hsr]
    omega
  have hL : (setLen255 buf (p + 2)).length = buf.length := length_setLen255 buf (p + 2)
  have hout : ∀ qq, qq < p + 2 ∨ p + 5 < qq →
      rd (setLen255 buf (p + 2)) junk qq = rd buf junk qq := by
    intro qq h
    exact rd_setLen255_outside buf junk (p + 2) qq (by omega)
  have hsrL : recSr (setLen255 buf (p + 2)) junk p = false := by
    unfold recSr recHeader at hsr ⊢
    rw [hout p (by omega)]
    exact hsr
  have htnfL : recTnf (setLen255 buf (p + 2)) junk p = recTnf buf junk p := by
    unfold recTnf recHeader
    rw [hout p (by omega)]
  have htlL : recTypeLen (setLen255 buf (p + 2)) junk p = recTypeLen buf junk p := by
    unfold recTypeLen
    rw [hout (p + 1) (by omega)]
  have hplL : recPayloadLen (setLen255 buf (p + 2)) junk p = 255 := by
    rw [part1 _ junk p hsrL, be32at_setLen255 buf junk (p + 2) (by omega)]
    simp
  have htoL : recTypeOff (setLen255 buf (p + 2)) junk p = p + 6 := by
    simp [recTypeOff, hsrL]
  have hto : recTypeOff buf junk p = p + 6 := by
    simp [recTypeOff, hsr]
  have h6 : rd (setLen255 buf (p + 2)) junk (p + 6) = rd buf junk (p + 6) :=
    hout (p + 6) (by omega)
  constructor
  · exact hpl
  · simp only [parseNdefRecord, hL, hsrL, hsr, htnfL, htlL, hplL, hpl, htoL, hto, h6]
    have hcopy : ∀ acc,
        copyFrom (setLen255 buf (p + 2)) junk (p + 6 + recTypeLen buf junk p) 1
          (255 - 1) acc =
        copyFrom buf junk (p + 6 + recTypeLen buf junk p) 1 (255 - 1) acc := by
      intro acc
      exact copyFrom_congr buf _ junk _ hL (fun q hq => hout q (by omega)) _ 1 acc
        (by omega)
    have hpo : rd (setLen255 buf (p + 2)) junk (p + 6 + recTypeLen buf junk p) =
        rd buf junk (p + 6 + recTypeLen buf junk p) := hout _ (by omega)
    rw [hpo]
    split
    · rfl
    · split
      · split
        · rw [hcopy]
        · rfl
      · rfl

/-- Witness for C5: `bufLongRec` declares big-endian payload length 65536;
the used length is 255 and the parse equals the parse of the same buffer
declaring 255. -/
theorem c5_long_record_length_clamp_witness :
    (recPayloadLen bufLongRec j0 2 = 255 ∧
      parseNdefRecord bufLongRec j0 2 =
        parseNdefRecord (setLen255 bufLongRec (2 + 2)) j0 2) ∧
    recPayloadLen bufLongRec j0 2 = min (be32at bufLongRec j0 (2 + 2)) 255 :=
  ⟨c5_long_record_length_clamp.2 bufLongRec j0 2 (by decide) (by decide) (by decide),
   c5_long_record_length_clamp.1 bufLongRec j0 2 (by decide)⟩

/-! ## Claim C6 -/

theorem optmap_add_one (o : Option Nat) (i : Nat) :
    (o.map (· + 1)).map (· + i) = o.map (· + (i + 1)) := by
  cases o with
  | none => rfl
  | some a => simp; omega

/-- The C scan for the third slash (index loop with a slash counter) finds
exactly the index of the third slash occurrence. -/
theorem thirdSlashFrom_eq_charIdxs :
    ∀ (cs : List Char) (i k : Nat), k ≤ 2 →
      thirdSlashFrom cs i k = ((charIdxs '/' cs).get? (2 - k)).map (· + i) := by
  intro cs
  induction cs with
  | nil => intro i k hk; rfl
  | cons a rest ih =>
    intro i k hk
    simp only [thirdSlashFrom, charIdxs]
    by_cases ha : a = '/'
    · rw [if_pos ha, if_pos ha]
      by_cases hk3 : k + 1 = 3
      · have hk2 : k = 2 := by omega
        subst hk2
        simp
      · rw [if_neg hk3, ih (i + 1) (k + 1) (by omega)]
        have h2k : 2 - k = (2 - (k + 1)) + 1 := by omega
        rw [h2k, List.get?_cons_succ, List.get?_map, optmap_add_one]
    · rw [if_neg ha, if_neg ha, ih (i + 1) k hk, List.get?_map, optmap_add_one]

theorem buildPlayUrlL_eq_spec (base dev tag : List Char) :
    buildPlayUrlL base dev tag = buildPlayUrlSpecL base dev tag := by
  unfold buildPlayUrlL buildPlayUrlSpecL
  rw [thirdSlashFrom_eq_charIdxs tag 0 0 (by omega)]
  have h : ((charIdxs '/' tag).get? 2).map (· + 0) = (charIdxs '/' tag).get? 2 := by
    cases (charIdxs '/' tag).get? 2 <;> simp
  rw [h]

/-- C6: for non-empty tag URI and non-empty server base, the implementation
equals the spec-worded builder — path is the substring of the tag URI from
its third slash (the whole URI when it has fewer than three slashes),
concatenated to the base with exactly one trailing slash of the base removed
when the base ends and the path starts with a slash — and at the claim's
concrete input the result is `http://h:8584/play/42?deviceId=living-room`. -/
theorem c6_build_url :
    (∀ (tag base dev : String), 0 < tag.length → 0 < base.length →
        buildPlayUrl base dev tag = buildPlayUrlSpec base dev tag) ∧
    buildPlayUrl "http://h:8584/" "living-room" "https://tag.example.com/play/42" =
      "http://h:8584/play/42?deviceId=living-room" := by
  constructor
  · intro tag base dev _ _
    unfold buildPlayUrl buildPlayUrlSpec
    rw [buildPlayUrlL_eq_spec]
  · decide

/-- Witness for C6 at the claim's concrete input. -/
theorem c6_build_url_witness :
    buildPlayUrl "http://h:8584/" "living-room" "https://tag.example.com/play/42" =
      buildPlayUrlSpec "http://h:8584/" "living-room" "https://tag.example.com/play/42" :=
  c6_build_url.1 "https://tag.example.com/play/42" "http://h:8584/" "living-room"
    (by decide) (by decide)

/-! ## Claim C7 -/

/-- C7: in a tick with the connectivity-loss signal, the loop forces
`NO_WIFI` exactly when the state (after the unconditional render step that
opens the tick) is `IDLE`; when that state is `WORKING`, `SUCCESS` or
`ERROR`, the tick leaves the LED state unchanged — an in-flight display is
never interrupted by a connectivity change. -/
theorem c7_wifi_loss_only_interrupts_idle :
    ∀ (d : Device) (inp : TickInput), inp.wifiConnected = false →
      ((updateLed d.ledState d.ledStateStartMs inp.now).1 = LedState.IDLE →
        (loopTick d inp).ledState = LedState.NO_WIFI) ∧
      ((updateLed d.ledState d.ledStateStartMs inp.now).1 = LedState.WORKING ∨
       (updateLed d.ledState d.ledStateStartMs inp.now).1 = LedState.SUCCESS ∨
       (updateLed d.ledState d.ledStateStartMs inp.now).1 = LedState.ERROR →
        (loopTick d inp).ledState =
          (updateLed d.ledState d.ledStateStartMs inp.now).1) := by
  intro d inp hw
  constructor
  · intro hidle
    simp [loopTick, hw, hidle]
  · intro hother
    have hne : ¬ (updateLed d.ledState d.ledStateStartMs inp.now).1 = LedState.IDLE := by
      rcases hother with h | h | h <;> rw [h] <;> decide
    simp [loopTick, hw, hne]

/-- Witness for C7: with the WiFi signal lost, a `WORKING` device stays
`WORKING` and an `IDLE` device becomes `NO_WIFI`. -/
theorem c7_wifi_loss_only_interrupts_idle_witness :
    (loopTick ⟨LedState.WORKING, 0, 0, initButton⟩
        ⟨100, false, true, "", false⟩).ledState = (updateLed LedState.WORKING 0 100).1 ∧
    (loopTick ⟨LedState.IDLE, 0, 0, initButton⟩
        ⟨100, false, true, "", false⟩).ledState = LedState.NO_WIFI :=
  ⟨(c7_wifi_loss_only_interrupts_idle ⟨LedState.WORKING, 0, 0, initButton⟩
      ⟨100, false, true, "", false⟩ rfl).2 (Or.inl rfl),
   (c7_wifi_loss_only_interrupts_idle ⟨LedState.IDLE, 0, 0, initButton⟩
      ⟨100, false, true, "", false⟩ rfl).1 rfl⟩

/-! ## Claim C8 -/

/-- C8 counterexample: with `ledStateStartMs = 0` and the tick at
`STATUS_DISPLAY_MS` (2000 ms), the display duration has elapsed
(elapsed = STATUS_DISPLAY_MS), yet `updateLed` leaves the state `SUCCESS`
instead of reverting it to `IDLE` — the code reverts only once elapsed is
STRICTLY greater than `STATUS_DISPLAY_MS` (`if (elapsed > STATUS_DISPLAY_MS)`). -/
theorem c8_revert_at_exact_duration_fails :
    2000 - 0 = STATUS_DISPLAY_MS ∧
    (updateLed LedState.SUCCESS 0 2000).1 = LedState.SUCCESS := by decide

/-- C8 (amended): `SUCCESS` and `ERROR` revert to `IDLE` exactly once the
elapsed time strictly exceeds `STATUS_DISPLAY_MS` — never at or before it —
and the check runs in every tick: an event-free connected tick still applies
`updateLed` to a `SUCCESS`/`ERROR` state. -/
theorem c8_status_revert_strict :
    (∀ (st : LedState) (startMs now : Nat),
        st = LedState.SUCCESS ∨ st = LedState.ERROR →
        updateLed st startMs now =
          if now - startMs > STATUS_DISPLAY_MS then (LedState.IDLE, now)
          else (st, startMs)) ∧
    (∀ (d : Device) (inp : TickInput),
        inp.wifiConnected = true →
        (buttonPressed d.button inp.buttonReading inp.now).1 = false →
        d.ledState = LedState.SUCCESS ∨ d.ledState = LedState.ERROR →
        (loopTick d inp).ledState =
          (updateLed d.ledState d.ledStateStartMs inp.now).1) := by
  constructor
  · intro st s n h
    rcases h with h | h <;> subst h <;> rfl
  · intro d inp hw hnp hse
    have hnw : ¬ (updateLed d.ledState d.ledStateStartMs inp.now).1 = LedState.NO_WIFI := by
      rcases hse with h | h <;> simp [updateLed, h] <;> split <;> simp
    simp [loopTick, hw, hnp, hnw]

/-- Witness for C8: a `SUCCESS` entered at 0 reverts at tick 3000
(3000 > 2000), and an event-free connected tick applies the render step. -/
theorem c8_status_revert_strict_witness :
    updateLed LedState.SUCCESS 0 3000 = (LedState.IDLE, 3000) ∧
    (loopTick ⟨LedState.SUCCESS, 0, 0, initButton⟩
        ⟨100, true, true, "", false⟩).ledState = (updateLed LedState.SUCCESS 0 100).1 := by
  constructor
  · rw [c8_status_revert_strict.1 LedState.SUCCESS 0 3000 (Or.inl rfl)]
    decide
  · exact c8_status_revert_strict.2 ⟨LedState.SUCCESS, 0, 0, initButton⟩
      ⟨100, true, true, "", false⟩ rfl (by decide) (Or.inl rfl)

/-! ## Claim C9 -/

theorem pressTrace_append (b : ButtonState) (xs ys : List (Nat × Bool)) :
    pressTrace b (xs ++ ys) = pressTrace b xs ++ pressTrace (runButton b xs) ys := by
  induction xs generalizing b with
  | nil => rfl
  | cons x rest ih =>
    obtain ⟨n, r⟩ := x
    simp only [List.cons_append, pressTrace, runButton]
    congr 1
    exact ih _

/-- While every pressed (LOW) sample is within the debounce window of the
last raw change, the stable reading never leaves HIGH and no press fires. -/
theorem debounce_no_press :
    ∀ (trace : List (Nat × Bool)) (b : ButtonState),
      b.prevStable = true →
      shortLows b.lastButtonState b.lastDebounceMs trace = true →
      pressTrace b trace = List.replicate trace.length false := by
  intro trace
  induction trace with
  | nil => intro b _ _; rfl
  | cons x rest ih =>
    obtain ⟨now, r⟩ := x
    intro b hprev hsl
    simp only [shortLows, Bool.and_eq_true] at hsl
    obtain ⟨hd, tl⟩ := hsl
    simp only [pressTrace, buttonPressed, hprev, List.length_cons]
    rw [List.replicate_succ]
    by_cases hgt :
        now - (if r != b.lastButtonState then now else b.lastDebounceMs) > DEBOUNCE_MS
    · rw [if_pos hgt]
      cases r with
      | false =>
        simp only [Bool.false_or, decide_eq_true_eq] at hd
        omega
      | true =>
        simp only [Bool.not_true, Bool.and_false]
        congr 1
        exact ih ⟨true, _, true⟩ rfl tl
    · rw [if_neg hgt]
      simp only [Bool.not_true, Bool.and_false]
      congr 1
      exact ih ⟨r, _, true⟩ rfl tl

/-- A held-pressed phase before the window has elapsed: no event, and the
debounce state is left exactly as entered. -/
theorem pre_lows_stable (t1 : Nat) :
    ∀ (ts : List Nat), (∀ t ∈ ts, t - t1 ≤ DEBOUNCE_MS) →
      pressTrace ⟨false, t1, true⟩ (ts.map (fun t => (t, false))) =
        List.replicate ts.length false ∧
      runButton ⟨false, t1, true⟩ (ts.map (fun t => (t, false))) = ⟨false, t1, true⟩ := by
  intro ts
  induction ts with
  | nil => intro _; exact ⟨rfl, rfl⟩
  | cons t rest ih =>
    intro h
    have hstep : buttonPressed ⟨false, t1, true⟩ false t = (false, ⟨false, t1, true⟩) := by
      have hle : ¬ t - t1 > DEBOUNCE_MS := by
        have := h t (List.mem_cons_self t rest)
        omega
      simp [buttonPressed, hle]
    have hrest := ih (fun q hq => h q (List.mem_cons_of_mem t hq))
    constructor
    · simp only [List.map_cons, pressTrace, hstep, List.length_cons]
      rw [List.replicate_succ]
      congr 1
      exact hrest.1
    · simp only [List.map_cons, runButton, hstep]
      exact hrest.2

/-- Once the stable reading is LOW, further pressed samples fire nothing
(edge- not level-triggered). -/
theorem post_lows_no_press :
    ∀ (ts : List Nat) (b : ButtonState), b.prevStable = false →
      pressTrace b (ts.map (fun t => (t, false))) = List.replicate ts.length false ∧
      (runButton b (ts.map (fun t => (t, false)))).prevStable = false := by
  intro ts
  induction ts with
  | nil => intro b h; exact ⟨rfl, h⟩
  | cons t rest ih =>
    intro b h
    refine ⟨?_, ?_⟩
    · simp only [List.map_cons, pressTrace, buttonPressed, h, Bool.false_and,
        ite_self, List.length_cons]
      rw [List.replicate_succ]
      congr 1
      exact (ih _ rfl).1
    · simp only [List.map_cons, runButton, buttonPressed, h, ite_self]
      exact (ih _ rfl).2

/-- Released (HIGH) samples never fire a press, from any state. -/
theorem high_run_no_press :
    ∀ (ts : List Nat) (b : ButtonState),
      pressTrace b (ts.map (fun t => (t, true))) = List.replicate ts.length false := by
  have hp : ∀ (c : Prop) [Decidable c] (pv : Bool),
      (pv && !(if c then true else pv)) = false := by
    intro c _ pv
    split
    · simp
    · cases pv <;> simp
  intro ts
  induction ts with
  | nil => intro b; rfl
  | cons t rest ih =>
    intro b
    simp only [List.map_cons, pressTrace, buttonPressed, List.length_cons]
    rw [List.replicate_succ, hp]
    congr 1
    exact ih _

/-- C9: from the initial debounce state, (a) a reading sequence whose every
pressed sample lies within `DEBOUNCE_MS` of the most recent raw change
(arbitrarily many bounces) produces zero press events; (b) a clean press —
samples LOW at `l` then through `pre` (all within the window), still LOW at
`fire` with `fire - l > DEBOUNCE_MS`, LOW through `post`, then released
through `highs` — produces exactly one press event, fired on the tick where
the stable reading first goes LOW (the `fire` tick). -/
theorem c9_debounce :
    (∀ (trace : List (Nat × Bool)),
        shortLows true 0 trace = true →
        pressTrace initButton trace = List.replicate trace.length false) ∧
    (∀ (l fire : Nat) (pre post highs : List Nat),
        (∀ t ∈ pre, t - l ≤ DEBOUNCE_MS) → DEBOUNCE_MS < fire - l →
        pressTrace initButton
            (((l :: pre) ++ fire :: post).map (fun t => (t, false)) ++
              highs.map (fun t => (t, true))) =
          List.replicate (1 + pre.length) false ++
            true :: List.replicate (post.length + highs.length) false) := by
  constructor
  · intro trace h
    exact debounce_no_press trace initButton rfl h
  · intro l fire pre post highs hpre hfire
    have h1 : buttonPressed initButton false l = (false, ⟨false, l, true⟩) := by
      simp [buttonPressed, initButton]
    have h2 : buttonPressed ⟨false, l, true⟩ false fire = (true, ⟨false, l, false⟩) := by
      simp [buttonPressed, hfire]
    simp only [List.map_append, List.map_cons, List.cons_append, List.append_assoc]
    simp only [pressTrace, h1]
    rw [pressTrace_append]
    have hpres := pre_lows_stable l pre hpre
    rw [hpres.1, hpres.2]
    simp only [pressTrace, h2]
    rw [pressTrace_append]
    have hpost := post_lows_no_press post ⟨false, l, false⟩ rfl
    rw [hpost.1, high_run_no_press highs _]
    rw [Nat.add_comm 1 pre.length, List.replicate_succ, List.replicate_add,
      List.cons_append]

/-- Witness for C9: a bouncy trace (low 20 ms, low again 15 ms) fires
nothing; a clean press at 100 ms held past the window fires exactly once, at
the 160 ms tick. -/
theorem c9_debounce_witness :
    pressTrace initButton [(10, false), (30, true), (45, false), (60, true)] =
      List.replicate 4 false ∧
    pressTrace initButton
        (((100 :: [120, 140]) ++ 160 :: [170]).map (fun t => (t, false)) ++
          [200, 260].map (fun t => (t, true))) =
      List.replicate (1 + 2) false ++ true :: List.replicate (1 + 2) false :=
  ⟨c9_debounce.1 [(10, false), (30, true), (45, false), (60, true)] (by decide),
   c9_debounce.2 100 160 [120, 140] [170] [200, 260] (by decide) (by decide)⟩
